import Mathlib

/-!
Verification of the SDV relational-metadata engine against its specification.

The repository ships only the tutorial notebook
`tutorials/relational_data/01_Relational_Metadata.ipynb`, which calls the
`sdv.Metadata` engine and records its outputs.  The engine itself is not part
of the repository sources, so every operation below is modelled from the
specification, with the notebook's recorded inputs and outputs (the demo
tables, the printed `to_dict` documents and the reloaded metadata) serving as
the authoritative observed behaviour wherever the two disagree.

Column values are modelled by the `Cell` inductive: an integer pandas column
is a list of `numv` cells with denominator 1, a float column has fractional
`numv` cells, object columns are `strv`/`null` cells, bool columns `boolv`
cells and datetime64 columns `dtv` cells.  The structured document produced
by `Metadata.to_dict` (and dumped verbatim by `Metadata.to_json`) is modelled
by the `Json` inductive, whose objects are ordered association lists exactly
as Python dicts preserve insertion order.
-/

namespace SDV

/-- Modelled from the spec: the closed set of semantic field types
(`id`, `categorical`, `numerical`, `boolean`, `datetime`). -/
inductive FType where
  | id
  | categorical
  | numerical
  | boolean
  | datetime
deriving DecidableEq, BEq

/-- Modelled from the spec: the subtype attached to `id` and `numerical`
fields (`integer | float` for numerical, `integer | string` for id). -/
inductive FieldSubtype where
  | integer
  | float
  | string
deriving DecidableEq, BEq

/-- Modelled from the spec: a foreign-key reference
`{table, field}` pointing at the parent table's primary-key field. -/
structure Ref where
  table : String
  field : String
deriving DecidableEq, BEq

/-- Modelled from the spec: one field descriptor — `type`, optional
`subtype`, optional datetime `format`, optional foreign-key `ref`. -/
structure FieldDescriptor where
  type : FType
  subtype : Option FieldSubtype
  format : Option String
  ref : Option Ref
deriving DecidableEq, BEq

/-- Modelled from the spec: a registered table — unique name, ordered
field map (insertion order) and optional primary-key field name. -/
structure Table where
  name : String
  fields : List (String × FieldDescriptor)
  primary_key : Option String
deriving DecidableEq, BEq

/-- Modelled from the spec: the MetadataStore aggregate, owning the
registered tables in insertion order.  The relationship graph is a derived
view over the tables' `ref` attributes (`relationships`, `children_of`). -/
structure Metadata where
  tables : List Table
deriving DecidableEq, BEq

/-- A parent→child edge of the derived relationship graph:
`(child_table, child_field) -> (parent_table, parent_field)`. -/
structure Edge where
  childTable : String
  childField : String
  parentTable : String
  parentField : String
deriving DecidableEq, BEq

/-- Modelled from the spec: the error taxonomy of section 7. -/
inductive MetaError where
  | schemaConflict
  | referenceError
  | keyViolation
  | usageError
  | malformedDocument
deriving DecidableEq, BEq

/-- A single cell of a sampled column.  Numbers are rationals (pandas int64
and float64 values), `strv` free text, `boolv` booleans, `dtv` datetime64
values and `null` missing data. -/
inductive Cell where
  | numv (q : Rat)
  | strv (s : String)
  | boolv (b : Bool)
  | dtv (s : String)
  | null
deriving DecidableEq, BEq

def Cell.isNull : Cell → Bool
  | .null => true
  | _ => false

def Cell.isNum : Cell → Bool
  | .numv _ => true
  | _ => false

def Cell.isBool : Cell → Bool
  | .boolv _ => true
  | _ => false

def Cell.isStr : Cell → Bool
  | .strv _ => true
  | _ => false

def Cell.isDt : Cell → Bool
  | .dtv _ => true
  | _ => false

def Cell.isIntegral : Cell → Bool
  | .numv q => q.den == 1
  | _ => false

/-- The non-null sample of a column. -/
def nonNull (col : List Cell) : List Cell :=
  col.filter (fun c => !c.isNull)

/-- Every (non-null) value of the sample is an integral number. -/
def allIntegral (cs : List Cell) : Bool :=
  cs.all Cell.isIntegral

/-- Ordered association-list lookup (first match wins), as Python dicts. -/
def alookup {α : Type} : List (String × α) → String → Option α
  | [], _ => none
  | p :: ps, k => if p.1 = k then some p.2 else alookup ps k

/-- Replace the descriptor stored under key `k`, preserving the order and
the remaining entries. -/
def setField (fs : List (String × FieldDescriptor)) (k : String)
    (d : FieldDescriptor) : List (String × FieldDescriptor) :=
  fs.map (fun p => (p.1, if p.1 = k then d else p.2))

/-- Look a table up by name in the registry (insertion order). -/
def findTable : List Table → String → Option Table
  | [], _ => none
  | t :: ts, k => if t.name = k then some t else findTable ts k

def cellMem (c : Cell) : List Cell → Bool
  | [] => false
  | d :: ds => if c = d then true else cellMem c ds

def distinctCells : List Cell → Bool
  | [] => true
  | c :: cs => !cellMem c cs && distinctCells cs

def hasNull (cs : List Cell) : Bool :=
  cs.any Cell.isNull

/-- Modelled from the spec: a primary-key column must hold unique,
non-null values across the sampled data. -/
def pkColumnOk (col : List Cell) : Bool :=
  distinctCells col && !hasNull col

/-- Modelled from the spec: TypeInferrer.  Priority chain over the non-null
sample: datetime, boolean, numerical (integer when every value is integral,
float otherwise), categorical as fallback; an empty or all-null column is
only `categorical`.  Key forcing (spec step 1) happens in `addTable`. -/
def infer (col : List Cell) : FieldDescriptor :=
  let vs := nonNull col
  if vs.isEmpty then ⟨.categorical, none, none, none⟩
  else if vs.all Cell.isDt then ⟨.datetime, none, none, none⟩
  else if vs.all Cell.isBool then ⟨.boolean, none, none, none⟩
  else if vs.all Cell.isNum then
    ⟨.numerical, some (if vs.all Cell.isIntegral then .integer else .float),
      none, none⟩
  else ⟨.categorical, none, none, none⟩

/-- The descriptor forced onto a key column: type `id`, subtype `integer`
when every sampled value is an integer, `string` otherwise. -/
def idDescriptorFor (col : List Cell) : FieldDescriptor :=
  ⟨.id, some (if allIntegral (nonNull col) then .integer else .string),
    none, none⟩

/-- Modelled from the spec and the notebook output: the field map starts
with a copy of the `fields_metadata` overrides (in override order) and then
appends, in column order, an inferred descriptor for every data column that
is not overridden.  This is why the notebook serializes the overridden
`timestamp` field of `transactions` before the first data column. -/
def buildFields (fields_metadata : List (String × FieldDescriptor))
    (data : List (String × List Cell)) : List (String × FieldDescriptor) :=
  fields_metadata ++
    (data.filter
        (fun c => !((fields_metadata.map Prod.fst).contains c.1))).map
      (fun c => (c.1, infer c.2))

/-- Modelled from the spec: primary-key handling of `add_table`.  The key
must name an existing data column holding unique non-null values; its
descriptor is forced to `id` regardless of the inferred type. -/
def applyPrimaryKey (fs : List (String × FieldDescriptor))
    (data : List (String × List Cell)) :
    Option String → Except MetaError (List (String × FieldDescriptor))
  | none => .ok fs
  | some pk =>
    match alookup data pk with
    | none => .error .keyViolation
    | some col =>
      if pkColumnOk col then .ok (setField fs pk (idDescriptorFor col))
      else .error .keyViolation

/-- Modelled from the spec: the fail-fast value-domain check of every edge
insertion — the referencing column's value domain must be compatible with
the parent key's subtype, both integer or both string; a subtype that
cannot be reconciled is a ReferenceError. -/
def domainCompatible (col : List Cell) :
    Option FieldSubtype → Bool
  | some .integer => allIntegral (nonNull col)
  | some .string => (nonNull col).all Cell.isStr
  | _ => false

/-- Modelled from the spec and the notebook: relationship handling of
`add_table`.  A `foreign_key` without a `parent` is a usage error; a
`parent` without a `foreign_key` is accepted and defaults the foreign key
to the parent's primary-key field name (the notebook adds `transactions`
with `parent` only and obtains the `session_id -> sessions.session_id`
edge).  The parent must be registered and have a primary key, the resolved
foreign key must name a field of the new table backed by a data column
whose value domain is compatible with the parent key's subtype (the
fail-fast check of the relationship graph, ReferenceError otherwise), and
that field's descriptor is forced to `id` with the parent key's subtype
plus the `ref` block. -/
def applyRelationship (m : Metadata)
    (fs : List (String × FieldDescriptor))
    (data : List (String × List Cell)) :
    Option String → Option String →
    Except MetaError (List (String × FieldDescriptor))
  | none, none => .ok fs
  | none, some _ => .error .usageError
  | some p, fko =>
    match findTable m.tables p with
    | none => .error .referenceError
    | some pt =>
      match pt.primary_key with
      | none => .error .referenceError
      | some ppk =>
        let fk := fko.getD ppk
        if (fs.map Prod.fst).contains fk then
          let ps : Option FieldSubtype :=
            match alookup pt.fields ppk with
            | some d => d.subtype
            | none => none
          match alookup data fk with
          | none => .error .referenceError
          | some col =>
            if domainCompatible col ps then
              .ok (setField fs fk ⟨.id, ps, none, some ⟨p, ppk⟩⟩)
            else .error .referenceError
        else .error .referenceError

/-- Modelled from the spec: `Metadata.add_table`.  Checks name uniqueness,
builds the field map (overrides first, then inferred columns), applies the
primary-key and relationship stages, and either fails with the first error
or appends the fully-built table to the registry.  The operation is atomic:
on error no part of the store changes (the caller keeps the old value). -/
def addTable (m : Metadata) (name : String)
    (data : List (String × List Cell))
    (fields_metadata : List (String × FieldDescriptor))
    (primary_key parent foreign_key : Option String) :
    Except MetaError Metadata :=
  if (m.tables.map Table.name).contains name then .error .schemaConflict
  else
    match applyPrimaryKey (buildFields fields_metadata data) data
        primary_key with
    | .error e => .error e
    | .ok fs1 =>
      match applyRelationship m fs1 data parent foreign_key with
      | .error e => .error e
      | .ok fs2 => .ok ⟨m.tables ++ [⟨name, fs2, primary_key⟩]⟩

/-- The Python method mutates `self` on success and leaves it untouched on
failure; `tryAddTable` returns the store the caller observes afterwards. -/
def tryAddTable (m : Metadata) (name : String)
    (data : List (String × List Cell))
    (fields_metadata : List (String × FieldDescriptor))
    (primary_key parent foreign_key : Option String) : Metadata :=
  match addTable m name data fields_metadata primary_key parent
      foreign_key with
  | .ok m2 => m2
  | .error _ => m

/-- The foreign-key edges contributed by one table, read off its fields'
`ref` attributes. -/
def tableEdges (t : Table) : List Edge :=
  t.fields.filterMap (fun f =>
    match f.2.ref with
    | some r => some ⟨t.name, f.1, r.table, r.field⟩
    | none => none)

/-- Modelled from the spec: the relationship graph is a derived view over
the tables' `ref` attributes, never stored independently. -/
def relationships (m : Metadata) : List Edge :=
  (m.tables.map tableEdges).flatten

/-- `RelationshipGraph.children_of`: the tables holding a foreign key into
`p`, in registration order. -/
def children_of (m : Metadata) (p : String) : List String :=
  (m.tables.filter (fun t =>
    (tableEdges t).any (fun e => e.parentTable == p))).map Table.name

/-- The structured document: JSON restricted to the shapes the engine
emits — strings and objects whose members keep insertion order, exactly as
Python dicts and `json.dump` do. -/
inductive Json where
  | str (s : String)
  | obj (members : List (String × Json))

def typeToString : FType → String
  | .id => "id"
  | .categorical => "categorical"
  | .numerical => "numerical"
  | .boolean => "boolean"
  | .datetime => "datetime"

def parseType (s : String) : Option FType :=
  if s = "id" then some .id
  else if s = "categorical" then some .categorical
  else if s = "numerical" then some .numerical
  else if s = "boolean" then some .boolean
  else if s = "datetime" then some .datetime
  else none

def subtypeToString : FieldSubtype → String
  | .integer => "integer"
  | .float => "float"
  | .string => "string"

def parseSubtype (s : String) : Option FieldSubtype :=
  if s = "integer" then some .integer
  else if s = "float" then some .float
  else if s = "string" then some .string
  else none

def refToJson (r : Ref) : Json :=
  .obj [("table", .str r.table), ("field", .str r.field)]

def parseRef : Json → Option Ref
  | .obj kvs =>
    match alookup kvs "table", alookup kvs "field" with
    | some (.str t), some (.str f) => some ⟨t, f⟩
    | _, _ => none
  | _ => none

/-- Serialize one field descriptor; `subtype`, `format` and `ref` members
are emitted only when present, in that order after `type`. -/
def descriptorToJson (d : FieldDescriptor) : Json :=
  .obj ([("type", .str (typeToString d.type))]
    ++ (match d.subtype with
        | some s => [("subtype", .str (subtypeToString s))]
        | none => [])
    ++ (match d.format with
        | some f => [("format", .str f)]
        | none => [])
    ++ (match d.ref with
        | some r => [("ref", refToJson r)]
        | none => []))

def parseOptSubtype : Option Json → Option (Option FieldSubtype)
  | none => some none
  | some (.str s) => (parseSubtype s).map some
  | some _ => none

def parseOptFormat : Option Json → Option (Option String)
  | none => some none
  | some (.str s) => some (some s)
  | some _ => none

def parseOptRef : Option Json → Option (Option Ref)
  | none => some none
  | some j => (parseRef j).map some

def parseDescriptor : Json → Option FieldDescriptor
  | .obj kvs =>
    match alookup kvs "type" with
    | some (.str ts) =>
      match parseType ts with
      | some ty =>
        match parseOptSubtype (alookup kvs "subtype"),
            parseOptFormat (alookup kvs "format"),
            parseOptRef (alookup kvs "ref") with
        | some sub, some fmt, some r => some ⟨ty, sub, fmt, r⟩
        | _, _, _ => none
      | none => none
    | _ => none
  | _ => none

def fieldsToJson : List (String × FieldDescriptor) → List (String × Json)
  | [] => []
  | p :: ps => (p.1, descriptorToJson p.2) :: fieldsToJson ps

def parseFields : List (String × Json) →
    Option (List (String × FieldDescriptor))
  | [] => some []
  | p :: ps =>
    match parseDescriptor p.2, parseFields ps with
    | some d, some ds => some ((p.1, d) :: ds)
    | _, _ => none

def tableToJson (t : Table) : Json :=
  .obj ([("fields", .obj (fieldsToJson t.fields))]
    ++ (match t.primary_key with
        | some pk => [("primary_key", .str pk)]
        | none => []))

def parseOptPk : Option Json → Option (Option String)
  | none => some none
  | some (.str s) => some (some s)
  | some _ => none

def parseTable (name : String) : Json → Option Table
  | .obj kvs =>
    match alookup kvs "fields" with
    | some (.obj fkvs) =>
      match parseFields fkvs with
      | some fs =>
        match parseOptPk (alookup kvs "primary_key") with
        | some pk => some ⟨name, fs, pk⟩
        | none => none
      | none => none
    | _ => none
  | _ => none

def tablesToJson : List Table → List (String × Json)
  | [] => []
  | t :: ts => (t.name, tableToJson t) :: tablesToJson ts

def parseTables : List (String × Json) → Option (List Table)
  | [] => some []
  | p :: ps =>
    match parseTable p.1 p.2, parseTables ps with
    | some t, some ts => some (t :: ts)
    | _, _ => none

/-- Modelled from the spec: `Metadata.to_dict`, the structured document
(`to_json` dumps exactly this document to a file). -/
def to_dict (m : Metadata) : Json :=
  .obj [("tables", .obj (tablesToJson m.tables))]

/-- A descriptor obeys the mutual-exclusion presence rules of the data
model: a subtype only for `id`/`numerical`, a format only for `datetime`,
a `ref` only on `id` (foreign-key) fields. -/
def wfDescriptor (d : FieldDescriptor) : Bool :=
  (d.subtype.isNone || (d.type == .id || d.type == .numerical)) &&
  (d.format.isNone || d.type == .datetime) &&
  (d.ref.isNone || d.type == .id)

def distinctStrings : List String → Bool
  | [] => true
  | s :: ss => !ss.contains s && distinctStrings ss

/-- Modelled from the spec: validity of a MetadataStore — distinct table
names, distinct field names per table, well-formed descriptors, a primary
key naming an existing field, and every `ref` resolving to a registered
parent whose primary key is the referenced field. -/
def validMetadata (m : Metadata) : Bool :=
  distinctStrings (m.tables.map Table.name) &&
  m.tables.all (fun t =>
    distinctStrings (t.fields.map Prod.fst) &&
    t.fields.all (fun f => wfDescriptor f.2) &&
    (match t.primary_key with
     | some pk => (t.fields.map Prod.fst).contains pk
     | none => true) &&
    t.fields.all (fun f =>
      match f.2.ref with
      | some r => m.tables.any (fun pt =>
          pt.name == r.table && pt.primary_key == some r.field)
      | none => true))

/-- Modelled from the spec: `from_document` — the `Metadata` constructor
applied to a saved document.  Types are taken verbatim from the document
(no re-inference); a document that does not parse or fails validation is
rejected as malformed with no partially-valid store produced. -/
def from_document (j : Json) : Except MetaError Metadata :=
  match j with
  | .obj kvs =>
    match alookup kvs "tables" with
    | some (.obj tkvs) =>
      match parseTables tkvs with
      | some ts =>
        if validMetadata ⟨ts⟩ then .ok ⟨ts⟩
        else .error .malformedDocument
      | none => .error .malformedDocument
    | _ => .error .malformedDocument
  | _ => .error .malformedDocument

/-- The serialized field order of one table inside a document: the member
keys of its `fields` object. -/
def jsonFieldOrder (j : Json) (tname : String) : List String :=
  match j with
  | .obj kvs =>
    match alookup kvs "tables" with
    | some (.obj tkvs) =>
      match alookup tkvs tname with
      | some (.obj tj) =>
        match alookup tj "fields" with
        | some (.obj fkvs) => fkvs.map Prod.fst
        | _ => []
      | _ => []
    | _ => []
  | _ => []

/-! The demo dataset of `load_demo`, transcribed from the notebook. -/

def userIdCol : List Cell :=
  [.numv 0, .numv 1, .numv 2, .numv 3, .numv 4, .numv 5, .numv 6, .numv 7,
   .numv 8, .numv 9]

def countryCol : List Cell :=
  [.strv "US", .strv "UK", .strv "ES", .strv "UK", .strv "US", .strv "DE",
   .strv "BG", .strv "ES", .strv "FR", .strv "UK"]

def genderCol : List Cell :=
  [.strv "M", .strv "F", .null, .strv "M", .strv "F", .strv "M", .strv "F",
   .null, .strv "F", .null]

def ageCol : List Cell :=
  [.numv 34, .numv 23, .numv 44, .numv 22, .numv 54, .numv 57, .numv 45,
   .numv 41, .numv 23, .numv 30]

def usersData : List (String × List Cell) :=
  [("user_id", userIdCol), ("country", countryCol), ("gender", genderCol),
   ("age", ageCol)]

def sessionIdCol : List Cell :=
  [.numv 0, .numv 1, .numv 2, .numv 3, .numv 4, .numv 5, .numv 6, .numv 7,
   .numv 8, .numv 9]

def sessionUserCol : List Cell :=
  [.numv 0, .numv 1, .numv 1, .numv 2, .numv 4, .numv 5, .numv 6, .numv 6,
   .numv 6, .numv 8]

def deviceCol : List Cell :=
  [.strv "mobile", .strv "tablet", .strv "tablet", .strv "mobile",
   .strv "mobile", .strv "mobile", .strv "mobile", .strv "tablet",
   .strv "mobile", .strv "tablet"]

def osCol : List Cell :=
  [.strv "android", .strv "ios", .strv "android", .strv "android",
   .strv "ios", .strv "android", .strv "ios", .strv "ios", .strv "ios",
   .strv "ios"]

def minutesCol : List Cell :=
  [.numv 23, .numv 12, .numv 8, .numv 13, .numv 9, .numv 32, .numv 7,
   .numv 21, .numv 29, .numv 34]

def sessionsData : List (String × List Cell) :=
  [("session_id", sessionIdCol), ("user_id", sessionUserCol),
   ("device", deviceCol), ("os", osCol), ("minutes", minutesCol)]

def transactionIdCol : List Cell :=
  [.numv 0, .numv 1, .numv 2, .numv 3, .numv 4, .numv 5, .numv 6, .numv 7,
   .numv 8, .numv 9]

def txSessionCol : List Cell :=
  [.numv 0, .numv 0, .numv 1, .numv 3, .numv 5, .numv 5, .numv 7, .numv 8,
   .numv 9, .numv 9]

def timestampCol : List Cell :=
  [.dtv "2019-01-01 12:34:32", .dtv "2019-01-01 12:42:21",
   .dtv "2019-01-07 17:23:11", .dtv "2019-01-10 11:08:57",
   .dtv "2019-01-10 21:54:08", .dtv "2019-01-11 11:21:20",
   .dtv "2019-01-22 14:44:10", .dtv "2019-01-23 10:14:09",
   .dtv "2019-01-27 16:09:17", .dtv "2019-01-29 12:10:48"]

def amountCol : List Cell :=
  [.numv (mkRat 1000 10), .numv (mkRat 553 10), .numv (mkRat 795 10),
   .numv (mkRat 1121 10), .numv (mkRat 1100 10), .numv (mkRat 763 10),
   .numv (mkRat 895 10), .numv (mkRat 1321 10), .numv (mkRat 680 10),
   .numv (mkRat 999 10)]

def cancelledCol : List Cell :=
  [.boolv false, .boolv false, .boolv false, .boolv true, .boolv true,
   .boolv false, .boolv false, .boolv true, .boolv false, .boolv false]

def transactionsData : List (String × List Cell) :=
  [("transaction_id", transactionIdCol), ("session_id", txSessionCol),
   ("timestamp", timestampCol), ("amount", amountCol),
   ("cancelled", cancelledCol)]

/-- The override the notebook passes for `transactions`. -/
def transactionsFM : List (String × FieldDescriptor) :=
  [("timestamp", ⟨.datetime, none, some "%Y-%m-%d", none⟩)]

/-- The store after `add_table('users', ..., primary_key='user_id')`. -/
def demoM1 : Metadata :=
  tryAddTable ⟨[]⟩ "users" usersData [] (some "user_id") none none

/-- The store after additionally running the notebook's
`add_table('sessions', ..., primary_key='session_id', parent='users',
foreign_key='user_id')`. -/
def demoM2 : Metadata :=
  tryAddTable demoM1 "sessions" sessionsData [] (some "session_id")
    (some "users") (some "user_id")

/-- The store after additionally running the notebook's
`add_table('transactions', ..., fields_metadata=transactions_fields,
primary_key='transaction_id', parent='sessions')` — note: no foreign key
is supplied. -/
def demoM : Metadata :=
  tryAddTable demoM2 "transactions" transactionsData transactionsFM
    (some "transaction_id") (some "sessions") none

/-! Small auxiliary instances used by the hypothesis witnesses. -/

/-- A one-table store whose table `p` has primary key `k`. -/
def mP : Metadata :=
  ⟨[⟨"p", [("k", ⟨.id, some .integer, none, none⟩)], some "k"⟩]⟩

/-- The single table of `mP`. -/
def tableP : Table :=
  ⟨"p", [("k", ⟨.id, some .integer, none, none⟩)], some "k"⟩

def childData9 : List (String × List Cell) :=
  [("k", [.numv 1]), ("v", [.strv "a"])]

def childData5 : List (String × List Cell) :=
  [("u", [.numv 1]), ("k", [.numv 2])]

/-- A child table whose column `k` holds strings — its value domain cannot
be reconciled with an integer parent key. -/
def childDataStr : List (String × List Cell) :=
  [("k", [.strv "a1"]), ("v", [.numv 3])]

def dataT : List (String × List Cell) :=
  [("a", [.numv 1]), ("b", [.strv "x"])]

def fmT : List (String × FieldDescriptor) :=
  [("b", ⟨.datetime, none, some "%Y", none⟩)]

/-- The store produced by registering `dataT` with override `fmT`. -/
def mT : Metadata :=
  tryAddTable ⟨[]⟩ "t" dataT fmT none none none

/-! ### Helper lemmas about the field map -/

theorem setField_keys (fs : List (String × FieldDescriptor)) (k : String)
    (d : FieldDescriptor) :
    (setField fs k d).map Prod.fst = fs.map Prod.fst := by
  induction fs with
  | nil => rfl
  | cons p ps ih =>
    simp only [setField, List.map_cons] at ih ⊢
    simp [ih]

theorem alookup_setField_self (fs : List (String × FieldDescriptor))
    (k : String) (d : FieldDescriptor)
    (h : (fs.map Prod.fst).contains k = true) :
    alookup (setField fs k d) k = some d := by
  induction fs with
  | nil => simp at h
  | cons p ps ih =>
    simp only [setField, List.map_cons, alookup]
    by_cases hk : p.1 = k
    · simp [hk]
    · simp only [if_neg hk]
      apply ih
      simp only [List.map_cons, List.contains_cons, Bool.or_eq_true,
        beq_iff_eq] at h
      rcases h with h | h
      · exact absurd h.symm hk
      · exact h

theorem alookup_setField_ne (fs : List (String × FieldDescriptor))
    (k k2 : String) (d : FieldDescriptor) (h : k2 ≠ k) :
    alookup (setField fs k d) k2 = alookup fs k2 := by
  induction fs with
  | nil => rfl
  | cons p ps ih =>
    simp only [setField, List.map_cons, alookup]
    by_cases hk : p.1 = k2
    · subst hk
      simp [alookup, if_neg h]
    · simp only [setField] at ih
      simp [alookup, if_neg hk, ih]

theorem alookup_append_left {α : Type} (fs gs : List (String × α))
    (k : String) (d : α) (h : alookup fs k = some d) :
    alookup (fs ++ gs) k = some d := by
  induction fs with
  | nil => simp [alookup] at h
  | cons p ps ih =>
    simp only [alookup, List.cons_append] at h ⊢
    by_cases hk : p.1 = k
    · simpa [hk] using h
    · simp only [if_neg hk] at h ⊢
      exact ih h

theorem mem_setField_self (fs : List (String × FieldDescriptor))
    (k : String) (d : FieldDescriptor)
    (h : (fs.map Prod.fst).contains k = true) :
    (k, d) ∈ setField fs k d := by
  induction fs with
  | nil => simp at h
  | cons p ps ih =>
    simp only [setField, List.map_cons]
    by_cases hk : p.1 = k
    · subst hk
      simp
    · refine List.mem_cons_of_mem _ ?_
      apply ih
      simp only [List.map_cons, List.contains_cons, Bool.or_eq_true,
        beq_iff_eq] at h
      rcases h with h | h
      · exact absurd h.symm hk
      · exact h

/-! ### Structural lemmas about the `add_table` stages -/

theorem buildFields_keys (fm : List (String × FieldDescriptor))
    (data : List (String × List Cell)) :
    (buildFields fm data).map Prod.fst =
      fm.map Prod.fst ++
        (data.filter
            (fun c => !((fm.map Prod.fst).contains c.1))).map Prod.fst := by
  simp only [buildFields, List.map_append, List.map_map]
  rfl

theorem applyPrimaryKey_keys (fs fs2 : List (String × FieldDescriptor))
    (data : List (String × List Cell)) (pk : Option String)
    (h : applyPrimaryKey fs data pk = .ok fs2) :
    fs2.map Prod.fst = fs.map Prod.fst := by
  cases pk with
  | none =>
    simp only [applyPrimaryKey] at h
    cases h
    rfl
  | some k =>
    simp only [applyPrimaryKey] at h
    split at h
    · cases h
    · split at h
      · cases h
        exact setField_keys ..
      · cases h

theorem applyRelationship_keys (m : Metadata)
    (fs fs2 : List (String × FieldDescriptor))
    (data : List (String × List Cell)) (par fko : Option String)
    (h : applyRelationship m fs data par fko = .ok fs2) :
    fs2.map Prod.fst = fs.map Prod.fst := by
  cases par with
  | none =>
    cases fko with
    | none =>
      simp only [applyRelationship] at h
      cases h
      rfl
    | some fk => simp [applyRelationship] at h
  | some p =>
    simp only [applyRelationship] at h
    split at h
    · cases h
    · split at h
      · cases h
      · split at h
        · split at h
          · cases h
          · split at h
            · cases h
              exact setField_keys ..
            · cases h
        · cases h

/-- Elimination principle for a successful `add_table`: the new store is the
old registry with the fully-built table appended, the name was fresh and
both stages succeeded. -/
theorem addTable_ok_elim {m : Metadata} {name : String}
    {data : List (String × List Cell)}
    {fm : List (String × FieldDescriptor)} {pk par fko : Option String}
    {m2 : Metadata}
    (h : addTable m name data fm pk par fko = .ok m2) :
    ∃ fs1 fs2,
      (m.tables.map Table.name).contains name = false ∧
      applyPrimaryKey (buildFields fm data) data pk = .ok fs1 ∧
      applyRelationship m fs1 data par fko = .ok fs2 ∧
      m2 = ⟨m.tables ++ [⟨name, fs2, pk⟩]⟩ := by
  unfold addTable at h
  split at h
  · cases h
  next hname =>
    split at h
    next e he => cases h
    next fs1 h1 =>
      split at h
      next e he => cases h
      next fs2 h2 =>
        cases h
        exact ⟨fs1, fs2, by simpa using hname, h1, h2, rfl⟩

/-! ### Serializer inversion lemmas -/

theorem parseSubtype_subtypeToString (s : FieldSubtype) :
    parseSubtype (subtypeToString s) = some s := by
  cases s <;> rfl

theorem parseDescriptor_descriptorToJson (d : FieldDescriptor) :
    parseDescriptor (descriptorToJson d) = some d := by
  obtain ⟨ty, sub, fmt, r⟩ := d
  cases ty <;> rcases sub with _ | s <;> rcases fmt with _ | f <;>
      rcases r with _ | ⟨rt, rf⟩ <;>
    first
    | (cases s <;> rfl)
    | rfl

theorem parseFields_fieldsToJson (fs : List (String × FieldDescriptor)) :
    parseFields (fieldsToJson fs) = some fs := by
  induction fs with
  | nil => rfl
  | cons p ps ih =>
    simp [fieldsToJson, parseFields, parseDescriptor_descriptorToJson, ih]

theorem parseTable_tableToJson (t : Table) :
    parseTable t.name (tableToJson t) = some t := by
  obtain ⟨n, fs, pk⟩ := t
  cases pk with
  | none =>
    simp [tableToJson, parseTable, alookup, parseFields_fieldsToJson,
      parseOptPk]
  | some k =>
    simp [tableToJson, parseTable, alookup, parseFields_fieldsToJson,
      parseOptPk]

theorem parseTables_tablesToJson (ts : List Table) :
    parseTables (tablesToJson ts) = some ts := by
  induction ts with
  | nil => rfl
  | cons t ts ih =>
    simp [tablesToJson, parseTables, parseTable_tableToJson, ih]

/-! ### Claim theorems -/

/-- C1: for every valid MetadataStore `M`, serializing `M` to the
structured document (`to_dict`, dumped verbatim by `to_json`) and
reconstructing a store from that document (the `Metadata` constructor on
the saved JSON, `from_document`) yields the identical store — hence
identical table order, field order, field descriptors, primary keys and
parent→child relationship edges. -/
theorem to_dict_from_document_roundtrip (m : Metadata)
    (h : validMetadata m = true) :
    from_document (to_dict m) = .ok m := by
  have hm : (⟨m.tables⟩ : Metadata) = m := rfl
  simp [to_dict, from_document, alookup, parseTables_tablesToJson, hm, h]

/-- Witness for C1 at the notebook's three-table store. -/
theorem to_dict_from_document_roundtrip_witness :
    validMetadata demoM = true ∧
    from_document (to_dict demoM) = .ok demoM :=
  ⟨rfl, to_dict_from_document_roundtrip demoM rfl⟩

/-- C7: a column that is not a key, not datetime and not boolean (in the
model: a non-empty non-null sample all of whose values are numbers) is
inferred as `numerical`, with subtype `integer` when every value is
integral and `float` otherwise. -/
theorem infer_numeric (col : List Cell)
    (hne : (nonNull col).isEmpty = false)
    (hnum : (nonNull col).all Cell.isNum = true) :
    infer col =
      ⟨.numerical,
        some (if (nonNull col).all Cell.isIntegral then .integer
          else .float),
        none, none⟩ := by
  rcases hvs : nonNull col with _ | ⟨c, cs⟩
  · rw [hvs] at hne
    simp at hne
  · have hall : (c :: cs).all Cell.isNum = true := by
      rw [← hvs]
      exact hnum
    have hc : c.isNum = true := by
      have h2 := hall
      simp only [List.all_cons, Bool.and_eq_true] at h2
      exact h2.1
    cases c with
    | numv q =>
      simp only [infer]
      rw [hvs]
      simp [List.all_cons, Cell.isDt, Cell.isBool, hall]
    | strv s => simp [Cell.isNum] at hc
    | boolv b => simp [Cell.isNum] at hc
    | dtv s => simp [Cell.isNum] at hc
    | null => simp [Cell.isNum] at hc

/-- Witness for C7 at the notebook's all-integer `age` column and
fractional `amount` column. -/
theorem infer_numeric_witness :
    ((nonNull ageCol).isEmpty = false ∧
      (nonNull ageCol).all Cell.isNum = true ∧
      infer ageCol =
        ⟨.numerical,
          some (if (nonNull ageCol).all Cell.isIntegral then .integer
            else .float),
          none, none⟩) ∧
    ((nonNull amountCol).isEmpty = false ∧
      (nonNull amountCol).all Cell.isNum = true ∧
      infer amountCol =
        ⟨.numerical,
          some (if (nonNull amountCol).all Cell.isIntegral then .integer
            else .float),
          none, none⟩) :=
  ⟨⟨rfl, rfl, infer_numeric ageCol rfl rfl⟩,
   ⟨rfl, rfl, infer_numeric amountCol rfl rfl⟩⟩

/-- C8: an `add_table` call whose `parent` names an unregistered table
fails with ReferenceError and leaves the MetadataStore unchanged — the
table list and the derived relationship graph afterwards equal their
values before the failed call. -/
theorem ghost_parent_fails (m : Metadata) (name : String)
    (data : List (String × List Cell))
    (fm : List (String × FieldDescriptor)) (pk fko : Option String)
    (p : String) (fs1 : List (String × FieldDescriptor))
    (hname : (m.tables.map Table.name).contains name = false)
    (hpk : applyPrimaryKey (buildFields fm data) data pk = .ok fs1)
    (hp : findTable m.tables p = none) :
    addTable m name data fm pk (some p) fko = .error .referenceError ∧
    tryAddTable m name data fm pk (some p) fko = m ∧
    (tryAddTable m name data fm pk (some p) fko).tables = m.tables ∧
    relationships (tryAddTable m name data fm pk (some p) fko) =
      relationships m := by
  have h1 : addTable m name data fm pk (some p) fko =
      .error .referenceError := by
    unfold addTable
    rw [hname]
    simp only [Bool.false_eq_true, if_false, hpk]
    simp only [applyRelationship, hp]
  refine ⟨h1, ?_, ?_, ?_⟩ <;> simp [tryAddTable, h1]

/-- Witness for C8 at the spec scenario: adding `sessions` with parent
`ghost_table` to the store holding only `users`. -/
theorem ghost_parent_fails_witness :
    (demoM1.tables.map Table.name).contains "sessions" = false ∧
    applyPrimaryKey (buildFields [] sessionsData) sessionsData none =
      .ok (buildFields [] sessionsData) ∧
    findTable demoM1.tables "ghost_table" = none ∧
    (addTable demoM1 "sessions" sessionsData [] none (some "ghost_table")
        (some "user_id") = .error .referenceError ∧
      tryAddTable demoM1 "sessions" sessionsData [] none
          (some "ghost_table") (some "user_id") = demoM1 ∧
      (tryAddTable demoM1 "sessions" sessionsData [] none
          (some "ghost_table") (some "user_id")).tables = demoM1.tables ∧
      relationships (tryAddTable demoM1 "sessions" sessionsData [] none
          (some "ghost_table") (some "user_id")) =
        relationships demoM1) :=
  ⟨rfl, rfl, rfl,
    ghost_parent_fails demoM1 "sessions" sessionsData [] none
      (some "user_id") "ghost_table" (buildFields [] sessionsData)
      rfl rfl rfl⟩

/-- C3 counterexample: the notebook itself registers `transactions` with
`parent='sessions'` and no `foreign_key`, and the call succeeds (the claim
says it must fail as a usage error). -/
theorem parent_without_foreign_key_succeeds :
    addTable demoM2 "transactions" transactionsData transactionsFM
        (some "transaction_id") (some "sessions") none = .ok demoM ∧
    demoM2.tables.map Table.name = ["users", "sessions"] ∧
    demoM.tables.map Table.name = ["users", "sessions", "transactions"] :=
  ⟨rfl, rfl, rfl⟩

/-- C3 amended: supplying `foreign_key` without `parent` is a usage error,
while supplying `parent` without `foreign_key` is accepted — the foreign
key then defaults to the parent's primary-key field name, so the call
behaves exactly as if that name had been passed. -/
theorem foreign_key_requires_parent (m : Metadata) (name : String)
    (data : List (String × List Cell))
    (fm : List (String × FieldDescriptor)) (pk : Option String)
    (fk p : String) (pt : Table) (ppk : String)
    (fs1 : List (String × FieldDescriptor))
    (hname : (m.tables.map Table.name).contains name = false)
    (hpk : applyPrimaryKey (buildFields fm data) data pk = .ok fs1)
    (hpt : findTable m.tables p = some pt)
    (hppk : pt.primary_key = some ppk) :
    addTable m name data fm pk none (some fk) = .error .usageError ∧
    addTable m name data fm pk (some p) none =
      addTable m name data fm pk (some p) (some ppk) := by
  constructor
  · unfold addTable
    rw [hname]
    simp only [Bool.false_eq_true, if_false, hpk]
    rfl
  · unfold addTable
    rw [hname]
    simp only [Bool.false_eq_true, if_false, hpk]
    simp only [applyRelationship, hpt, hppk, Option.getD_none,
      Option.getD_some]

/-- Witness for C3's amended theorem on a small concrete store. -/
theorem foreign_key_requires_parent_witness :
    ((mP.tables.map Table.name).contains "c" = false ∧
      applyPrimaryKey (buildFields [] childData9) childData9 none =
        .ok (buildFields [] childData9) ∧
      findTable mP.tables "p" = some tableP ∧
      tableP.primary_key = some "k") ∧
    (addTable mP "c" childData9 [] none none (some "x") =
        .error .usageError ∧
      addTable mP "c" childData9 [] none (some "p") none =
        addTable mP "c" childData9 [] none (some "p") (some "k")) :=
  ⟨⟨rfl, rfl, rfl, rfl⟩,
    foreign_key_requires_parent mP "c" childData9 [] none "x" "p" tableP
      "k" (buildFields [] childData9) rfl rfl rfl rfl⟩

/-- C9 counterexample: a child whose column named after the parent's
integer primary key holds string values is rejected with ReferenceError by
the fail-fast value-domain check, although the parent is registered with a
primary key and the column exists — the claim asserts the call succeeds
and wires the reference. -/
theorem string_default_foreign_key_rejected :
    addTable mP "c" childDataStr [] none (some "p") none =
      .error .referenceError ∧
    findTable mP.tables "p" = some tableP ∧
    tableP.primary_key = some "k" ∧
    ((buildFields [] childDataStr).map Prod.fst).contains "k" = true ∧
    alookup childDataStr "k" = some [Cell.strv "a1"] ∧
    domainCompatible [Cell.strv "a1"] (some .integer) = false :=
  ⟨rfl, rfl, rfl, rfl, rfl, rfl⟩

/-- C9 amended: calling `add_table` with `parent` but no `foreign_key`,
when the new table has a field named after the parent's primary key whose
backing column's value domain is compatible with the parent key's subtype,
succeeds using that field as the foreign key: its descriptor gains the
reference to `(parent, parent primary key)` with type forced to `id`, and
the edge appears in the derived relationship graph. -/
theorem default_foreign_key (m : Metadata) (name : String)
    (data : List (String × List Cell))
    (fm : List (String × FieldDescriptor)) (pk : Option String)
    (p : String) (pt : Table) (ppk : String) (pd : FieldDescriptor)
    (col : List Cell) (fs1 : List (String × FieldDescriptor))
    (hname : (m.tables.map Table.name).contains name = false)
    (hpk : applyPrimaryKey (buildFields fm data) data pk = .ok fs1)
    (hpt : findTable m.tables p = some pt)
    (hppk : pt.primary_key = some ppk)
    (hpd : alookup pt.fields ppk = some pd)
    (hmem : (fs1.map Prod.fst).contains ppk = true)
    (hcol : alookup data ppk = some col)
    (hcompat : domainCompatible col pd.subtype = true) :
    addTable m name data fm pk (some p) none =
      .ok ⟨m.tables ++
        [⟨name, setField fs1 ppk ⟨.id, pd.subtype, none, some ⟨p, ppk⟩⟩,
          pk⟩]⟩ ∧
    alookup (setField fs1 ppk ⟨.id, pd.subtype, none, some ⟨p, ppk⟩⟩)
        ppk = some ⟨.id, pd.subtype, none, some ⟨p, ppk⟩⟩ ∧
    (⟨name, ppk, p, ppk⟩ : Edge) ∈
      relationships ⟨m.tables ++
        [⟨name, setField fs1 ppk ⟨.id, pd.subtype, none, some ⟨p, ppk⟩⟩,
          pk⟩]⟩ := by
  refine ⟨?_, alookup_setField_self fs1 ppk _ hmem, ?_⟩
  · unfold addTable
    rw [hname]
    simp only [Bool.false_eq_true, if_false, hpk]
    simp only [applyRelationship, hpt, hppk, Option.getD_none, hmem,
      if_true, hpd, hcol, hcompat]
  · have hin : (ppk, (⟨.id, pd.subtype, none, some ⟨p, ppk⟩⟩ :
        FieldDescriptor)) ∈
        setField fs1 ppk ⟨.id, pd.subtype, none, some ⟨p, ppk⟩⟩ :=
      mem_setField_self fs1 ppk _ hmem
    have hedge : (⟨name, ppk, p, ppk⟩ : Edge) ∈
        tableEdges ⟨name,
          setField fs1 ppk ⟨.id, pd.subtype, none, some ⟨p, ppk⟩⟩, pk⟩ :=
      List.mem_filterMap.mpr ⟨_, hin, rfl⟩
    exact List.mem_flatten.mpr
      ⟨tableEdges ⟨name,
          setField fs1 ppk ⟨.id, pd.subtype, none, some ⟨p, ppk⟩⟩, pk⟩,
        List.mem_map_of_mem _ (by simp), hedge⟩

/-- Witness for C9 on a small concrete store with parent `p` (primary key
`k`) and a child whose integer column `k` becomes the default foreign
key. -/
theorem default_foreign_key_witness :
    ((mP.tables.map Table.name).contains "c" = false ∧
      applyPrimaryKey (buildFields [] childData9) childData9 none =
        .ok (buildFields [] childData9) ∧
      findTable mP.tables "p" = some tableP ∧
      tableP.primary_key = some "k" ∧
      alookup tableP.fields "k" =
        some ⟨.id, some .integer, none, none⟩ ∧
      ((buildFields [] childData9).map Prod.fst).contains "k" = true ∧
      alookup childData9 "k" = some [Cell.numv 1] ∧
      domainCompatible [Cell.numv 1] (some .integer) = true) ∧
    (addTable mP "c" childData9 [] none (some "p") none =
        .ok ⟨mP.tables ++
          [⟨"c", setField (buildFields [] childData9) "k"
            ⟨.id, some .integer, none, some ⟨"p", "k"⟩⟩, none⟩]⟩ ∧
      alookup (setField (buildFields [] childData9) "k"
          ⟨.id, some .integer, none, some ⟨"p", "k"⟩⟩) "k" =
        some ⟨.id, some .integer, none, some ⟨"p", "k"⟩⟩ ∧
      (⟨"c", "k", "p", "k"⟩ : Edge) ∈
        relationships ⟨mP.tables ++
          [⟨"c", setField (buildFields [] childData9) "k"
            ⟨.id, some .integer, none, some ⟨"p", "k"⟩⟩, none⟩]⟩) :=
  ⟨⟨rfl, rfl, rfl, rfl, rfl, rfl, rfl, rfl⟩,
    default_foreign_key mP "c" childData9 [] none "p" tableP "k"
      ⟨.id, some .integer, none, none⟩ [Cell.numv 1]
      (buildFields [] childData9) rfl rfl rfl rfl rfl rfl rfl rfl⟩

/-- C5 counterexample: with parent `p` registered under an integer
primary key and `foreign_key='k'` naming an existing string-valued column
of the new table, the call fails with ReferenceError through the
fail-fast value-domain check instead of wiring the reference the claim
promises. -/
theorem string_foreign_key_rejected :
    addTable mP "c" childDataStr [] none (some "p") (some "k") =
      .error .referenceError ∧
    findTable mP.tables "p" = some tableP ∧
    tableP.primary_key = some "k" ∧
    alookup tableP.fields "k" = some ⟨.id, some .integer, none, none⟩ ∧
    ((buildFields [] childDataStr).map Prod.fst).contains "k" = true ∧
    alookup childDataStr "k" = some [Cell.strv "a1"] ∧
    children_of ⟨mP.tables⟩ "p" = [] :=
  ⟨rfl, rfl, rfl, rfl, rfl, rfl, rfl⟩

/-- C5 amended: `add_table` with both `parent` and `foreign_key`, where
the parent is registered with a primary key of subtype `s` and the foreign
key names a field of the new table backed by a column whose value domain
is compatible with `s`, succeeds; the foreign-key field's descriptor is
forced to type `id` with subtype `s` and gains the reference to
`(parent, parent primary key)`, and the parent's children afterwards
include the new table. -/
theorem foreign_key_registration (m : Metadata) (name : String)
    (data : List (String × List Cell))
    (fm : List (String × FieldDescriptor)) (pk : Option String)
    (p fk : String) (pt : Table) (ppk : String) (pd : FieldDescriptor)
    (s : FieldSubtype) (col : List Cell)
    (fs1 : List (String × FieldDescriptor))
    (hname : (m.tables.map Table.name).contains name = false)
    (hpk : applyPrimaryKey (buildFields fm data) data pk = .ok fs1)
    (hpt : findTable m.tables p = some pt)
    (hppk : pt.primary_key = some ppk)
    (hpd : alookup pt.fields ppk = some pd)
    (hs : pd.subtype = some s)
    (hmem : (fs1.map Prod.fst).contains fk = true)
    (hcol : alookup data fk = some col)
    (hcompat : domainCompatible col (some s) = true) :
    addTable m name data fm pk (some p) (some fk) =
      .ok ⟨m.tables ++
        [⟨name, setField fs1 fk ⟨.id, some s, none, some ⟨p, ppk⟩⟩,
          pk⟩]⟩ ∧
    alookup (setField fs1 fk ⟨.id, some s, none, some ⟨p, ppk⟩⟩) fk =
      some ⟨.id, some s, none, some ⟨p, ppk⟩⟩ ∧
    name ∈ children_of ⟨m.tables ++
        [⟨name, setField fs1 fk ⟨.id, some s, none, some ⟨p, ppk⟩⟩,
          pk⟩]⟩ p := by
  refine ⟨?_, alookup_setField_self fs1 fk _ hmem, ?_⟩
  · unfold addTable
    rw [hname]
    simp only [Bool.false_eq_true, if_false, hpk]
    simp only [applyRelationship, hpt, hppk, Option.getD_some, hmem,
      if_true, hpd, hs, hcol, hcompat]
  · have hin : (fk, (⟨.id, some s, none, some ⟨p, ppk⟩⟩ :
        FieldDescriptor)) ∈
        setField fs1 fk ⟨.id, some s, none, some ⟨p, ppk⟩⟩ :=
      mem_setField_self fs1 fk _ hmem
    have hedge : (⟨name, fk, p, ppk⟩ : Edge) ∈
        tableEdges ⟨name,
          setField fs1 fk ⟨.id, some s, none, some ⟨p, ppk⟩⟩, pk⟩ :=
      List.mem_filterMap.mpr ⟨_, hin, rfl⟩
    refine List.mem_map.mpr
      ⟨⟨name, setField fs1 fk ⟨.id, some s, none, some ⟨p, ppk⟩⟩, pk⟩,
        List.mem_filter.mpr ⟨by simp, ?_⟩, rfl⟩
    exact List.any_eq_true.mpr ⟨_, hedge, by simp⟩

/-- Witness for C5 on a small concrete store: child `c` declares its
integer column `k` as a foreign key into parent `p` whose primary key `k`
has subtype integer. -/
theorem foreign_key_registration_witness :
    ((mP.tables.map Table.name).contains "c" = false ∧
      applyPrimaryKey (buildFields [] childData5) childData5 none =
        .ok (buildFields [] childData5) ∧
      findTable mP.tables "p" = some tableP ∧
      tableP.primary_key = some "k" ∧
      alookup tableP.fields "k" =
        some ⟨.id, some .integer, none, none⟩ ∧
      ((buildFields [] childData5).map Prod.fst).contains "k" = true ∧
      alookup childData5 "k" = some [Cell.numv 2] ∧
      domainCompatible [Cell.numv 2] (some .integer) = true) ∧
    (addTable mP "c" childData5 [] none (some "p") (some "k") =
        .ok ⟨mP.tables ++
          [⟨"c", setField (buildFields [] childData5) "k"
            ⟨.id, some .integer, none, some ⟨"p", "k"⟩⟩, none⟩]⟩ ∧
      alookup (setField (buildFields [] childData5) "k"
          ⟨.id, some .integer, none, some ⟨"p", "k"⟩⟩) "k" =
        some ⟨.id, some .integer, none, some ⟨"p", "k"⟩⟩ ∧
      "c" ∈ children_of ⟨mP.tables ++
          [⟨"c", setField (buildFields [] childData5) "k"
            ⟨.id, some .integer, none, some ⟨"p", "k"⟩⟩, none⟩]⟩ "p") :=
  ⟨⟨rfl, rfl, rfl, rfl, rfl, rfl, rfl, rfl⟩,
    foreign_key_registration mP "c" childData5 [] none "p" "k" tableP
      "k" ⟨.id, some .integer, none, none⟩ .integer [Cell.numv 2]
      (buildFields [] childData5) rfl rfl rfl rfl rfl rfl rfl rfl rfl⟩

/-- C6: `add_table` with a `primary_key` naming an existing column of
unique, non-null, all-integer values succeeds; that column's descriptor is
forced to `{type: id, subtype: integer}` regardless of inference, and the
registered table records the field name as its primary key. -/
theorem primary_key_forcing (m : Metadata) (name : String)
    (data : List (String × List Cell))
    (fm : List (String × FieldDescriptor)) (pk : String)
    (col : List Cell)
    (hname : (m.tables.map Table.name).contains name = false)
    (hcol : alookup data pk = some col)
    (hok : pkColumnOk col = true)
    (hint : allIntegral (nonNull col) = true)
    (hmem : ((buildFields fm data).map Prod.fst).contains pk = true) :
    addTable m name data fm (some pk) none none =
      .ok ⟨m.tables ++
        [⟨name, setField (buildFields fm data) pk
          ⟨.id, some .integer, none, none⟩, some pk⟩]⟩ ∧
    alookup (setField (buildFields fm data) pk
        ⟨.id, some .integer, none, none⟩) pk =
      some ⟨.id, some .integer, none, none⟩ ∧
    (⟨name, setField (buildFields fm data) pk
        ⟨.id, some .integer, none, none⟩, some pk⟩ : Table).primary_key =
      some pk := by
  have hid : idDescriptorFor col = ⟨.id, some .integer, none, none⟩ := by
    simp [idDescriptorFor, hint]
  refine ⟨?_, alookup_setField_self _ pk _ hmem, rfl⟩
  unfold addTable
  rw [hname]
  simp only [Bool.false_eq_true, if_false, applyPrimaryKey, hcol, hok,
    if_true, hid]
  rfl

/-- Witness for C6 at the notebook's `users` table: the all-integer
`user_id` column declared as primary key. -/
theorem primary_key_forcing_witness :
    (((⟨[]⟩ : Metadata).tables.map Table.name).contains "users" = false ∧
      alookup usersData "user_id" = some userIdCol ∧
      pkColumnOk userIdCol = true ∧
      allIntegral (nonNull userIdCol) = true ∧
      ((buildFields [] usersData).map Prod.fst).contains "user_id" =
        true) ∧
    (addTable ⟨[]⟩ "users" usersData [] (some "user_id") none none =
        .ok ⟨(⟨[]⟩ : Metadata).tables ++
          [⟨"users", setField (buildFields [] usersData) "user_id"
            ⟨.id, some .integer, none, none⟩, some "user_id"⟩]⟩ ∧
      alookup (setField (buildFields [] usersData) "user_id"
          ⟨.id, some .integer, none, none⟩) "user_id" =
        some ⟨.id, some .integer, none, none⟩ ∧
      (⟨"users", setField (buildFields [] usersData) "user_id"
          ⟨.id, some .integer, none, none⟩, some "user_id"⟩ :
        Table).primary_key = some "user_id") :=
  ⟨⟨rfl, rfl, rfl, rfl, rfl⟩,
    primary_key_forcing ⟨[]⟩ "users" usersData [] "user_id" userIdCol
      rfl rfl rfl rfl rfl⟩

/-! ### Document field-order lemmas -/

theorem fieldsToJson_keys (fs : List (String × FieldDescriptor)) :
    (fieldsToJson fs).map Prod.fst = fs.map Prod.fst := by
  induction fs with
  | nil => rfl
  | cons p ps ih => simp [fieldsToJson, ih]

theorem alookup_tablesToJson (ts : List Table) (k : String) :
    alookup (tablesToJson ts) k = (findTable ts k).map tableToJson := by
  induction ts with
  | nil => rfl
  | cons t ts ih =>
    simp only [tablesToJson, alookup, findTable]
    by_cases hk : t.name = k
    · simp [hk]
    · simp [if_neg hk, ih]

theorem findTable_append_fresh (ts : List Table) (t : Table)
    (h : (ts.map Table.name).contains t.name = false) :
    findTable (ts ++ [t]) t.name = some t := by
  induction ts with
  | nil => simp [findTable]
  | cons t2 ts ih =>
    simp only [List.map_cons, List.contains_cons, Bool.or_eq_false_iff,
      beq_eq_false_iff_ne] at h
    rw [List.cons_append]
    simp only [findTable]
    rw [if_neg (fun (he : t2.name = t.name) => h.1 he.symm)]
    exact ih h.2

/-- Reading a table's serialized field order out of the document is the
same as reading the field keys of the registered table. -/
theorem jsonFieldOrder_to_dict (m : Metadata) (k : String) :
    jsonFieldOrder (to_dict m) k =
      (match findTable m.tables k with
       | some t => t.fields.map Prod.fst
       | none => []) := by
  cases hf : findTable m.tables k with
  | none =>
    simp [to_dict, jsonFieldOrder, alookup, alookup_tablesToJson, hf]
  | some t =>
    rcases t with ⟨n, fs, pk⟩
    cases pk <;>
      simp [to_dict, jsonFieldOrder, alookup_tablesToJson, hf,
        tableToJson, alookup, fieldsToJson_keys]

/-- The field order any successful `add_table` leaves in the serialized
document: the overridden fields first, then the remaining data columns. -/
theorem addTable_doc_field_order {m : Metadata} {name : String}
    {data : List (String × List Cell)}
    {fm : List (String × FieldDescriptor)} {pk par fko : Option String}
    {m2 : Metadata}
    (h : addTable m name data fm pk par fko = .ok m2) :
    jsonFieldOrder (to_dict m2) name =
      fm.map Prod.fst ++
        (data.filter
          (fun c => !((fm.map Prod.fst).contains c.1))).map Prod.fst := by
  obtain ⟨fs1, fs2, hname, h1, h2, hm2⟩ := addTable_ok_elim h
  subst hm2
  have hkeys : fs2.map Prod.fst = (buildFields fm data).map Prod.fst :=
    (applyRelationship_keys _ _ _ _ _ _ h2).trans
      (applyPrimaryKey_keys _ _ _ _ h1)
  have hfind : findTable (m.tables ++ [⟨name, fs2, pk⟩]) name =
      some ⟨name, fs2, pk⟩ :=
    findTable_append_fresh m.tables ⟨name, fs2, pk⟩ hname
  rw [jsonFieldOrder_to_dict]
  rw [show (Metadata.mk (m.tables ++ [⟨name, fs2, pk⟩])).tables =
      m.tables ++ [⟨name, fs2, pk⟩] from rfl]
  rw [hfind]
  show fs2.map Prod.fst = _
  rw [hkeys, buildFields_keys]

/-- C10: for every table registered through `add_table`, the serialized
document lists the fields named in `fields_metadata` first (in override
order) and only then the remaining data columns in data order. -/
theorem override_fields_first (m : Metadata) (name : String)
    (data : List (String × List Cell))
    (fm : List (String × FieldDescriptor)) (pk par fko : Option String)
    (m2 : Metadata)
    (h : addTable m name data fm pk par fko = .ok m2) :
    jsonFieldOrder (to_dict m2) name =
      fm.map Prod.fst ++
        (data.filter
          (fun c => !((fm.map Prod.fst).contains c.1))).map Prod.fst :=
  addTable_doc_field_order h

/-- Witness for C10 at the notebook's `transactions` table: `timestamp`
(the override) is serialized before `transaction_id`, the first data
column. -/
theorem override_fields_first_witness :
    addTable demoM2 "transactions" transactionsData transactionsFM
        (some "transaction_id") (some "sessions") none = .ok demoM ∧
    jsonFieldOrder (to_dict demoM) "transactions" =
      transactionsFM.map Prod.fst ++
        (transactionsData.filter
          (fun c =>
            !((transactionsFM.map Prod.fst).contains c.1))).map
          Prod.fst :=
  ⟨rfl,
    override_fields_first demoM2 "transactions" transactionsData
      transactionsFM (some "transaction_id") (some "sessions") none demoM
      rfl⟩

/-- C2 counterexample: the notebook's `transactions` table is serialized
with `timestamp` first, not in the original column order of the data
passed to `add_table`. -/
theorem serialized_field_order_counterexample :
    jsonFieldOrder (to_dict demoM) "transactions" =
      ["timestamp", "transaction_id", "session_id", "amount",
        "cancelled"] ∧
    transactionsData.map Prod.fst =
      ["transaction_id", "session_id", "timestamp", "amount",
        "cancelled"] ∧
    jsonFieldOrder (to_dict demoM) "transactions" ≠
      transactionsData.map Prod.fst := by
  refine ⟨rfl, rfl, ?_⟩
  decide

/-- C2 amended: for every table registered with no `fields_metadata`
overrides, the serialized document lists the table's fields in the
original column order of the data passed to `add_table` (insertion order,
never key-sorted). -/
theorem field_order_without_overrides (m : Metadata) (name : String)
    (data : List (String × List Cell)) (pk par fko : Option String)
    (m2 : Metadata)
    (h : addTable m name data [] pk par fko = .ok m2) :
    jsonFieldOrder (to_dict m2) name = data.map Prod.fst := by
  have h0 := addTable_doc_field_order h
  rw [h0]
  simp

/-- Witness for C2's amended theorem at the notebook's `users` table. -/
theorem field_order_without_overrides_witness :
    addTable ⟨[]⟩ "users" usersData [] (some "user_id") none none =
      .ok demoM1 ∧
    jsonFieldOrder (to_dict demoM1) "users" = usersData.map Prod.fst :=
  ⟨rfl,
    field_order_without_overrides ⟨[]⟩ "users" usersData
      (some "user_id") none none demoM1 rfl⟩

/-- C4: a field named in `fields_metadata` keeps the override's
type/subtype/format descriptor exactly, regardless of what inference would
have produced from the raw column values (provided neither the primary-key
nor the foreign-key stage retargets that same field). -/
theorem override_precedence (m : Metadata) (name : String)
    (data : List (String × List Cell))
    (fm : List (String × FieldDescriptor)) (pk par fko : Option String)
    (f : String) (d : FieldDescriptor) (m2 : Metadata)
    (h : addTable m name data fm pk par fko = .ok m2)
    (hd : alookup fm f = some d)
    (hpkf : pk ≠ some f)
    (hrel : ∀ p pt ppk, par = some p → findTable m.tables p = some pt →
      pt.primary_key = some ppk → fko.getD ppk ≠ f) :
    (m2.tables.getLast?.bind fun t => alookup t.fields f) = some d := by
  obtain ⟨fs1, fs2, hname, h1, h2, hm2⟩ := addTable_ok_elim h
  subst hm2
  have h0 : alookup (buildFields fm data) f = some d :=
    alookup_append_left _ _ _ _ hd
  have hfs1 : alookup fs1 f = some d := by
    cases pk with
    | none =>
      simp only [applyPrimaryKey] at h1
      cases h1
      exact h0
    | some k =>
      have hkf : f ≠ k := fun hf => hpkf (by rw [hf])
      simp only [applyPrimaryKey] at h1
      split at h1
      · cases h1
      · split at h1
        · cases h1
          rw [alookup_setField_ne _ _ _ _ hkf]
          exact h0
        · cases h1
  have hfs2 : alookup fs2 f = some d := by
    cases par with
    | none =>
      cases fko with
      | none =>
        simp only [applyRelationship] at h2
        cases h2
        exact hfs1
      | some fk => simp [applyRelationship] at h2
    | some p =>
      simp only [applyRelationship] at h2
      split at h2
      · cases h2
      next pt hpt =>
        split at h2
        · cases h2
        next ppk hppk =>
          split at h2
          · split at h2
            · cases h2
            · split at h2
              · cases h2
                have hne : f ≠ fko.getD ppk :=
                  fun hf => (hrel p pt ppk rfl hpt hppk) hf.symm
                rw [alookup_setField_ne _ _ _ _ hne]
                exact hfs1
              · cases h2
          · cases h2
  simp [List.getLast?_concat, hfs2]

/-- Witness for C4: a two-column table whose column `b` carries a datetime
override that inference (seeing a string column) would never produce. -/
theorem override_precedence_witness :
    (addTable ⟨[]⟩ "t" dataT fmT none none none = .ok mT ∧
      alookup fmT "b" = some ⟨.datetime, none, some "%Y", none⟩ ∧
      (none : Option String) ≠ some "b" ∧
      infer [Cell.strv "x"] = ⟨.categorical, none, none, none⟩) ∧
    (mT.tables.getLast?.bind fun t => alookup t.fields "b") =
      some ⟨.datetime, none, some "%Y", none⟩ :=
  ⟨⟨rfl, rfl, by decide, rfl⟩,
    override_precedence ⟨[]⟩ "t" dataT fmT none none none "b"
      ⟨.datetime, none, some "%Y", none⟩ mT rfl rfl (by decide)
      (fun p pt ppk hp _ _ => nomatch hp)⟩

end SDV
